import Mathlib

/-!
Verification of the rendezvous mediator (src/rendezvous_mediator.rs).

The definitions below are a shallow embedding of the latency tracker, the
UDP registration state machine's latency/failure bookkeeping, the
PK-mismatch single-flight guard, the ConfigureUpdate handler, and the
online-status query `query_online_states_`.  Machine integers (Rust
`i64`) are modelled as `Int`; every division in the embedded code acts on
nonnegative operands in all reachable states, where Rust's truncating
division and Lean's integer division agree.  Fallible or stateful code is
modelled by explicit state passing; values written through
`Config::update_latency` are returned as explicit publish events.
-/

namespace Rendezvous

/-- Latency-tracker state embedded in the UDP loop: the EMA accumulator
`ema_latency` and the last published value `old_latency`
(rendezvous_mediator.rs lines 166-167). -/
structure EmaState where
  emaLatency : Int
  oldLatency : Int
deriving DecidableEq, Repr

/-- Pure core of the `update_latency` closure of `start_udp`
(rendezvous_mediator.rs lines 173-194), from the point where the raw
round-trip `latency` has been computed.  Returns the new EMA state and
`some v` when `Config::update_latency(&host, v)` is invoked, `none`
otherwise. -/
def updateLatency (raw : Int) (s : EmaState) : EmaState × Option Int :=
  if raw < 0 ∨ 1000000 < raw then (s, none)
  else
    let latency := if s.emaLatency = 0 then raw else raw / 30 + s.emaLatency * 29 / 30
    let n := if latency / 5 < 3000 then 3000 else latency / 5
    if n < |latency - s.oldLatency| ∨ s.oldLatency ≤ 0 then
      ({ emaLatency := latency, oldLatency := latency }, some latency)
    else
      ({ emaLatency := latency, oldLatency := s.oldLatency }, none)

/-- The smoothed value the closure computes from a raw measurement: the raw
value itself when the EMA is unseeded, else the EMA step
`raw / 30 + ema * 29 / 30` (rendezvous_mediator.rs lines 180-184). -/
def smoothedOf (raw : Int) (s : EmaState) : Int :=
  if s.emaLatency = 0 then raw else raw / 30 + s.emaLatency * 29 / 30

/-- State evolution of the EMA under a stream of identical raw
measurements, starting from the loop-initial state `ema = 0, old = 0`
(rendezvous_mediator.rs lines 166-167). -/
def constRun (raw : Int) : Nat → EmaState
  | 0 => ⟨0, 0⟩
  | n + 1 => (updateLatency raw (constRun raw n)).1

/-- One call of `Config::update_latency(&host, value)`, recording the value
written, the value of the `fails` counter at the moment of the write, and
whether the write came from the timer branch of the loop (as opposed to
the latency callback on a registration response). -/
structure Publish where
  value : Int
  failsAt : Int
  fromTimer : Bool
deriving DecidableEq, Repr

/-- Loop-local state of `start_udp` relevant to latency publication
(rendezvous_mediator.rs lines 158-167): the consecutive-failure counter
`fails`, the registration timeout `reg_timeout`, whether a registration
is in flight (`last_register_sent.is_some()`), whether any response was
ever received (`last_register_resp.is_some()`), and the EMA state. -/
structure UdpState where
  fails : Int
  regTimeout : Int
  regInFlight : Bool
  everResp : Bool
  ema : EmaState
deriving DecidableEq, Repr

/-- Events driving the `start_udp` select loop: a 1-second timer tick
(the two flags stand for the environment-decided outcomes of the
`expired` and `reg_timeout`-elapsed time comparisons, lines 217-218) or a
registration response invoking the latency callback with the measured
elapsed microseconds. -/
inductive UdpEvent
  | tick (expiredFlag timeoutFlag : Bool)
  | resp (elapsed : Int)
deriving DecidableEq, Repr

/-- Initial loop state of `start_udp`: `fails = 0`,
`reg_timeout = MIN_REG_TIMEOUT = 3000`, nothing sent or received,
EMA unseeded (rendezvous_mediator.rs lines 158-167). -/
def udpInit : UdpState := ⟨0, 3000, false, false, ⟨0, 0⟩⟩

/-- One iteration of the `start_udp` select loop
(rendezvous_mediator.rs lines 196-249).  `pubSrv` is the
`using_public_server()` configuration gate of the backoff ladder.  A
response resets `fails` and `reg_timeout` and runs the latency callback;
a timer tick runs the timeout/expiry bookkeeping, publishing the
sentinels −1 (at `fails >= MAX_FAILS2 = 4`) or 0 (at
`fails >= MAX_FAILS1 = 2`) and zeroing `old_latency` alongside; every
taken send branch leaves a registration in flight. -/
def stepUdp (pubSrv : Bool) (s : UdpState) (e : UdpEvent) : UdpState × List Publish :=
  match e with
  | .resp elapsed =>
      let raw := if s.regInFlight then elapsed else 0
      let r := updateLatency raw s.ema
      ({ fails := 0, regTimeout := 3000, regInFlight := false, everResp := true, ema := r.1 },
       match r.2 with
       | some v => [⟨v, 0, false⟩]
       | none => [])
  | .tick expiredFlag timeoutFlag =>
      let expired := if s.everResp then expiredFlag else true
      let timeout := s.regInFlight && timeoutFlag
      let rt := if pubSrv = true ∧ timeout = true ∧ s.regTimeout < 30000
                then s.regTimeout + 3000 else s.regTimeout
      if timeout = true ∨ (s.regInFlight = false ∧ expired = true) then
        if timeout = true then
          if 4 ≤ s.fails + 1 then
            ({ s with
                fails := s.fails + 1, regTimeout := rt, regInFlight := true,
                ema := ⟨s.ema.emaLatency, 0⟩ }, [⟨-1, s.fails + 1, true⟩])
          else if 2 ≤ s.fails + 1 then
            ({ s with
                fails := s.fails + 1, regTimeout := rt, regInFlight := true,
                ema := ⟨s.ema.emaLatency, 0⟩ }, [⟨0, s.fails + 1, true⟩])
          else
            ({ s with fails := s.fails + 1, regTimeout := rt, regInFlight := true }, [])
        else
          ({ s with regTimeout := rt, regInFlight := true }, [])
      else
        ({ s with regTimeout := rt }, [])

/-- Run of the `start_udp` loop over a trace of events, accumulating every
latency publication in order. -/
def runUdp (pubSrv : Bool) (s : UdpState) : List UdpEvent → UdpState × List Publish
  | [] => (s, [])
  | e :: tr =>
      let r1 := stepUdp pubSrv s e
      let r2 := runUdp pubSrv r1.1 tr
      (r2.1, r1.2 ++ r2.2)

/-- Claim C4 as stated: along every execution, −1 is only published once
the failure counter has reached 4, and 0 is only published once the
counter has reached 2 and while it is below 4. -/
def sentinelOrderClaim : Prop :=
  ∀ (pubSrv : Bool) (tr : List UdpEvent) (p : Publish),
    p ∈ (runUdp pubSrv udpInit tr).2 →
      (p.value = -1 → 4 ≤ p.failsAt) ∧ (p.value = 0 → 2 ≤ p.failsAt ∧ p.failsAt < 4)

/-- Process-wide state read and written by the registration/recovery
paths: the `SOLVING_PK_MISMATCH` guard string, the global and per-host
key-confirmed flags of the config store, and a counter of
`Config::update_id()` calls standing for the local identity generation. -/
structure GuardState where
  solving : String
  keyConfirmed : Bool
  hostConfirmed : String → Bool
  idUpdates : Nat

/-- Outbound registration messages relevant to the guard claims. -/
inductive RzMsg
  | registerPeerMsg (id : String) (serial : Int)
  | registerPkMsg (id : String)
deriving DecidableEq, Repr

/-- `handle_uuid_mismatch` (rendezvous_mediator.rs lines 545-558): if the
guard is empty or already names this host, mark the key unconfirmed,
request a new identity, record this host as the solver and send a
RegisterPk; otherwise return Ok without any effect.  The returned list
holds the messages sent. -/
def handle_uuid_mismatch (host id : String) (g : GuardState) : GuardState × List RzMsg :=
  if g.solving = "" ∨ g.solving = host then
    ({ g with keyConfirmed := false, idUpdates := g.idUpdates + 1, solving := host },
     [RzMsg.registerPkMsg id])
  else (g, [])

/-- `register_peer` (rendezvous_mediator.rs lines 560-588): skip when the
guard names another host; send RegisterPk when the key is not confirmed
globally or for this host's prefix `hpfx`; otherwise send RegisterPeer.
The returned list holds the messages sent. -/
def register_peer (host hpfx id : String) (serial : Int) (g : GuardState) : List RzMsg :=
  if ¬(g.solving = "" ∨ g.solving = host) then []
  else if ¬g.keyConfirmed ∨ ¬g.hostConfirmed hpfx then [RzMsg.registerPkMsg id]
  else [RzMsg.registerPeerMsg id serial]

/-- The two process-wide control flags `SHOULD_EXIT` and
`MANUAL_RESTARTED` (rendezvous_mediator.rs lines 45-46). -/
structure ControlFlags where
  shouldExit : Bool
  manualRestarted : Bool
deriving DecidableEq, Repr

/-- `RendezvousMediator::restart` (rendezvous_mediator.rs lines 57-61):
store true into both control flags. -/
def restart (_fl : ControlFlags) : ControlFlags :=
  { shouldExit := true, manualRestarted := true }

/-- The slice of the config store touched by the ConfigureUpdate handler:
the raw "rendezvous-servers" option string and the serial number. -/
structure ConfigStore where
  rendezvousServersOption : String
  serial : Int
deriving DecidableEq, Repr

/-- The ConfigureUpdate arm of `handle_resp`
(rendezvous_mediator.rs lines 312-322): read the current server list,
store the pushed list (joined with commas) into the option, store the
pushed serial, and restart iff the server list read back after the write
differs from the one read before.  `getServers` abstracts
`Config::get_rendezvous_servers`, whose implementation lives in the
external hbb_common config store. -/
def handleConfigureUpdate (getServers : ConfigStore → List String)
    (c : ConfigStore) (fl : ControlFlags)
    (pushedServers : List String) (pushedSerial : Int) :
    ConfigStore × ControlFlags :=
  let v0 := getServers c
  let c1 := { c with rendezvousServersOption := String.intercalate "," pushedServers }
  let c2 := { c1 with serial := pushedSerial }
  if v0 ≠ getServers c2 then (c2, restart fl) else (c2, fl)

/-- Bit `7 - i % 8` of byte `i / 8` of the presence bitmap, most
significant bit first, exactly as tested by
`(states[i / 8] & bit_value) == bit_value`
(rendezvous_mediator.rs lines 767-769); false when the byte index is out
of range. -/
def bitOf (states : List Nat) (i : Nat) : Bool :=
  match states[i / 8]? with
  | some b => b.land (Nat.shiftLeft 1 (7 - i % 8)) == Nat.shiftLeft 1 (7 - i % 8)
  | none => false

/-- The decode loop `for i in 0..ids.len()` of `query_online_states_`
(rendezvous_mediator.rs lines 764-774), walking the id list with its
index and the online/offline accumulators.  `none` models the Rust panic
on an out-of-bounds `states[i / 8]` access. -/
def decode_go (states : List Nat) : List String → Nat → List String → List String →
    Option (List String × List String)
  | [], _, onl, ofl => some (onl, ofl)
  | a :: rest, i, onl, ofl =>
    match states[i / 8]? with
    | none => none
    | some b =>
      let bit := Nat.shiftLeft 1 (7 - i % 8)
      if b.land bit == bit then decode_go states rest (i + 1) (onl ++ [a]) ofl
      else decode_go states rest (i + 1) onl (ofl ++ [a])

/-- Full bitmap decode of an OnlineResponse against an id list
(rendezvous_mediator.rs lines 763-775). -/
def decodeOnlineStates (ids : List String) (states : List Nat) :
    Option (List String × List String) :=
  decode_go states ids 0 [] []

/-- Specification-side classification (claim C7's words): the ids whose
index has its bitmap bit set, in list order. -/
def onlinesSpec (ids : List String) (states : List Nat) : List String :=
  ((List.enum ids).filter (fun p => bitOf states p.1)).map Prod.snd

/-- Specification-side classification (claim C7's words): the ids whose
index has its bitmap bit clear, in list order. -/
def offlinesSpec (ids : List String) (states : List Nat) : List String :=
  ((List.enum ids).filter (fun p => !bitOf states p.1)).map Prod.snd

/-- Outcome of the receive step of one `query_online_states_` iteration:
the stream yielded nothing (`crate::common::get_next_nonkeyexchange_msg`
returned None), a message of the wrong variant, or an OnlineResponse with
the given states bytes. -/
inductive RecvOutcome
  | closed
  | wrongVariant
  | online (states : List Nat)
deriving DecidableEq, Repr

/-- Environment-decided outcomes of one iteration of the
`query_online_states_` retry loop: the `SHOULD_EXIT` flag, whether
`create_online_stream` succeeds, whether the send succeeds, the receive
outcome, and whether `query_begin.elapsed() > timeout` at the
end-of-iteration check. -/
structure IterEnv where
  shouldExit : Bool
  connectOk : Bool
  sendOk : Bool
  recv : RecvOutcome
  timedOut : Bool
deriving DecidableEq, Repr

/-- Result of `query_online_states_`: `ok` for `Ok((onlines, offlines))`,
`err` for `bail!`, `panicked` for the out-of-bounds indexing panic. -/
inductive QueryResult
  | ok (onlines offlines : List String)
  | err
  | panicked
deriving DecidableEq, Repr

/-- The retry loop of `query_online_states_`
(rendezvous_mediator.rs lines 743-791) over a list of per-iteration
environments; `none` means the supplied trace ended before the loop
returned. -/
def queryLoop (ids : List String) : List IterEnv → Option QueryResult
  | [] => none
  | e :: rest =>
      if e.shouldExit = true then some (QueryResult.ok [] [])
      else if e.connectOk = false then some (QueryResult.ok [] ids)
      else if e.sendOk = false then some (QueryResult.ok [] ids)
      else
        match e.recv with
        | RecvOutcome.online states =>
            match decodeOnlineStates ids states with
            | some (onl, ofl) => some (QueryResult.ok onl ofl)
            | none => some QueryResult.panicked
        | RecvOutcome.wrongVariant =>
            if e.timedOut = true then some QueryResult.err else queryLoop ids rest
        | RecvOutcome.closed => some QueryResult.err

end Rendezvous

namespace Rendezvous

/-- The deadband radius written `max (L / 5) 3000` agrees with the code's
`let mut n = latency / 5; if n < 3000 { n = 3000 }`. -/
theorem max_ite_3000 (x : Int) :
    max (x / 5) 3000 = if x / 5 < 3000 then (3000 : Int) else x / 5 := by
  rcases le_or_lt (x / 5) 3000 with h | h
  · rw [max_eq_right h]; split_ifs <;> omega
  · rw [max_eq_left (le_of_lt h)]; split_ifs <;> omega

/-- C1: in the UDP latency callback, for every prior published value
`P = old_latency` and new smoothed value `L`, a publish of `L` occurs iff
`|L - P| > max (L / 5) 3000` or no prior published value exists (the code
represents the absence of a prior published value as `old_latency <= 0`,
which is also how the sentinel publications reset it). -/
theorem c1_publish_deadband (raw : Int) (s : EmaState)
    (h0 : 0 ≤ raw) (h1 : raw ≤ 1000000) :
    (updateLatency raw s).2 =
      if max (smoothedOf raw s / 5) 3000 < |smoothedOf raw s - s.oldLatency| ∨
          s.oldLatency ≤ 0
      then some (smoothedOf raw s) else none := by
  rw [max_ite_3000]
  simp only [updateLatency, smoothedOf]
  rw [if_neg (by omega : ¬(raw < 0 ∨ 1000000 < raw))]
  split_ifs <;> rfl

/-- Witness for C1 at a concrete input: raw 5000 µs against state
`ema = 10000, old = 10000` is within the deadband, so no publish occurs. -/
theorem c1_publish_deadband_witness :
    (0 : Int) ≤ 5000 ∧ (5000 : Int) ≤ 1000000 ∧
      (updateLatency 5000 ⟨10000, 10000⟩).2 =
        (if max (smoothedOf 5000 ⟨10000, 10000⟩ / 5) 3000 <
            |smoothedOf 5000 ⟨10000, 10000⟩ - (10000 : Int)| ∨ (10000 : Int) ≤ 0
         then some (smoothedOf 5000 ⟨10000, 10000⟩) else none) :=
  ⟨by decide, by decide, c1_publish_deadband 5000 ⟨10000, 10000⟩ (by decide) (by decide)⟩

/-- C3 counterexample: a raw measurement of exactly 0 µs passes the guard
`latency < 0 || latency > 1_000_000`; it both updates the EMA (30 decays
to 29) and, from the fresh state, triggers a publish of 0. -/
theorem c3_zero_raw_used :
    updateLatency 0 ⟨30, 100⟩ = (⟨29, 100⟩, none) ∧
      updateLatency 0 ⟨0, 0⟩ = (⟨0, 0⟩, some 0) := by
  constructor <;> decide

/-- C3 amended: a raw measurement is discarded (no EMA update, no publish)
iff it is negative or exceeds 1_000_000 µs; a measurement of exactly 0 µs
is accepted and used. -/
theorem c3_discard_amended (raw : Int) (s : EmaState)
    (h : raw < 0 ∨ 1000000 < raw) :
    updateLatency raw s = (s, none) := by
  simp only [updateLatency]
  rw [if_pos h]

/-- Witness for C3 amended: a raw measurement of 2_000_000 µs is discarded. -/
theorem c3_discard_amended_witness :
    ((2000000 : Int) < 0 ∨ (1000000 : Int) < 2000000) ∧
      updateLatency 2000000 ⟨30, 100⟩ = (⟨30, 100⟩, none) :=
  ⟨by decide, c3_discard_amended 2000000 ⟨30, 100⟩ (by decide)⟩

/-- The first accepted measurement seeds the EMA with the raw value and
publishes it (old_latency starts at 0, so the `old_latency <= 0` disjunct
fires). -/
theorem updateLatency_seed (raw : Int) (h0 : 0 < raw) (h1 : raw ≤ 1000000) :
    updateLatency raw ⟨0, 0⟩ = (⟨raw, raw⟩, some raw) := by
  simp only [updateLatency]
  rw [if_neg (by omega : ¬(raw < 0 ∨ 1000000 < raw))]
  split_ifs <;> simp_all

/-- One EMA step under a constant raw input `raw ≥ 30`, from a state whose
EMA lies between `30 * (raw / 30)` and `raw` and whose published value is
`raw`: the EMA moves to `raw / 30 + e * 29 / 30` and nothing is published
(the deviation from `raw` stays below the 3000 µs deadband). -/
theorem updateLatency_step (raw e : Int) (h30 : 30 ≤ raw) (h1 : raw ≤ 1000000)
    (hlo : 30 * (raw / 30) ≤ e) (hhi : e ≤ raw) :
    updateLatency raw ⟨e, raw⟩ = (⟨raw / 30 + e * 29 / 30, raw⟩, none) := by
  have hne : ¬(e = 0) := by omega
  simp only [updateLatency]
  rw [if_neg (by omega : ¬(raw < 0 ∨ 1000000 < raw))]
  split_ifs <;>
    first
      | rfl
      | (exfalso
         rcases abs_cases (raw / 30 + e * 29 / 30 - raw) with ⟨hab, _⟩ | ⟨hab, _⟩ <;>
           simp_all <;> omega)

/-- Closed form of the constant-input run for `raw ≥ 30`: after `k + 1`
steps the EMA is `max (raw - k) (30 * (raw / 30))` (written as an `if`)
and the published value is pinned at `raw`. -/
theorem constRun_closed (raw : Int) (h30 : 30 ≤ raw) (h1 : raw ≤ 1000000) :
    ∀ k : Nat, constRun raw (k + 1) =
      ⟨if raw - (k : Int) ≤ 30 * (raw / 30) then 30 * (raw / 30) else raw - (k : Int), raw⟩ := by
  intro k
  induction k with
  | zero =>
      have hz : (if raw - ((0 : Nat) : Int) ≤ 30 * (raw / 30) then 30 * (raw / 30)
          else raw - ((0 : Nat) : Int)) = raw := by split_ifs <;> omega
      rw [show constRun raw 1 = (updateLatency raw ⟨0, 0⟩).1 from rfl,
          updateLatency_seed raw (by omega) h1, hz]
  | succ k ih =>
      have hstep := updateLatency_step raw
        (if raw - (k : Int) ≤ 30 * (raw / 30) then 30 * (raw / 30) else raw - (k : Int))
        h30 h1 (by split_ifs <;> omega) (by split_ifs <;> omega)
      rw [show constRun raw (k + 1 + 1) = (updateLatency raw (constRun raw (k + 1))).1 from rfl,
          ih, hstep]
      simp only [EmaState.mk.injEq]
      refine ⟨?_, trivial⟩
      split_ifs <;> omega

/-- With integer division and a constant raw input below 30 µs, the EMA
decays by one per step, reaches 0, and is then re-seeded with the raw
value: at raw = 1 the state oscillates between `⟨1, 1⟩` and `⟨0, 1⟩`
forever. -/
theorem constRun_one_periodic :
    ∀ n : Nat, constRun 1 (2 * n + 1) = ⟨1, 1⟩ ∧ constRun 1 (2 * n + 2) = ⟨0, 1⟩ := by
  intro n
  induction n with
  | zero => exact ⟨by decide, by decide⟩
  | succ k ih =>
      have e1 : 2 * (k + 1) + 1 = (2 * k + 2) + 1 := by omega
      have e2 : 2 * (k + 1) + 2 = ((2 * k + 2) + 1) + 1 := by omega
      have s1 : constRun 1 ((2 * k + 2) + 1) = ⟨1, 1⟩ := by
        rw [show constRun 1 ((2 * k + 2) + 1) = (updateLatency 1 (constRun 1 (2 * k + 2))).1
              from rfl, ih.2]
        decide
      refine ⟨by rw [e1, s1], ?_⟩
      rw [e2, show constRun 1 (((2 * k + 2) + 1) + 1)
            = (updateLatency 1 (constRun 1 ((2 * k + 2) + 1))).1 from rfl, s1]
      decide

/-- C2 counterexample: at the constant positive raw latency 1 µs, the
smoothed value does not converge — the integer EMA alternates between 1
and 0 forever, so no tail of the run is constant. -/
theorem c2_ema_not_convergent :
    ¬ ∃ N : Nat, ∀ n : Nat, N ≤ n → (constRun 1 n).emaLatency = (constRun 1 N).emaLatency := by
  rintro ⟨N, hN⟩
  have h1 := hN (2 * N + 1) (by omega)
  have h2 := hN (2 * N + 2) (by omega)
  have p := constRun_one_periodic N
  rw [p.1] at h1
  rw [p.2] at h2
  simp only at h1 h2
  omega

/-- C2 amended: for every constant raw latency in [30, 1_000_000] µs the
first measurement is published as-is, the smoothed value converges
(the run is eventually constant), and the tracked published value stays
equal to the raw value at every step.  (For raw < 30 the integer EMA
decays to 0, re-seeds and oscillates, so the smoothed value never
converges; the published value still equals the raw value.) -/
theorem c2_ema_convergence_amended (raw : Int) (h30 : 30 ≤ raw) (h1 : raw ≤ 1000000) :
    (updateLatency raw (constRun raw 0)).2 = some raw ∧
    (∃ N : Nat, ∀ n : Nat, N ≤ n → constRun raw n = constRun raw N) ∧
    (∀ n : Nat, 1 ≤ n → (constRun raw n).oldLatency = raw) := by
  refine ⟨?_, ⟨(raw - 30 * (raw / 30)).toNat + 1, ?_⟩, ?_⟩
  · rw [show constRun raw 0 = (⟨0, 0⟩ : EmaState) from rfl,
        updateLatency_seed raw (by omega) h1]
  · intro n hn
    obtain ⟨k, rfl⟩ : ∃ k, n = k + 1 := ⟨n - 1, by omega⟩
    rw [constRun_closed raw h30 h1 k, constRun_closed raw h30 h1 ((raw - 30 * (raw / 30)).toNat)]
    simp only [EmaState.mk.injEq]
    refine ⟨?_, trivial⟩
    split_ifs <;> omega
  · intro n hn
    obtain ⟨k, rfl⟩ : ∃ k, n = k + 1 := ⟨n - 1, by omega⟩
    rw [constRun_closed raw h30 h1 k]

/-- Witness for C2 amended at the concrete raw latency 100 µs. -/
theorem c2_ema_convergence_amended_witness :
    (30 : Int) ≤ 100 ∧ (100 : Int) ≤ 1000000 ∧
      ((updateLatency 100 (constRun 100 0)).2 = some 100 ∧
       (∃ N : Nat, ∀ n : Nat, N ≤ n → constRun 100 n = constRun 100 N) ∧
       (∀ n : Nat, 1 ≤ n → (constRun 100 n).oldLatency = 100)) :=
  ⟨by decide, by decide, c2_ema_convergence_amended 100 (by decide) (by decide)⟩

/-- C4 counterexample: the claim as stated fails — from the initial state,
a registration response arriving with no registration in flight computes
a raw latency of 0, which the callback publishes while the failure
counter is 0 (the callback resets it before publishing), so a 0 latency
is published before the counter ever reaches 2. -/
theorem c4_sentinel_order_false : ¬ sentinelOrderClaim := by
  intro h
  have h0 := (h true [UdpEvent.resp 0] ⟨0, 0, false⟩ (by decide)).2 rfl
  simp at h0

/-- The EMA accumulator never becomes negative under the callback. -/
theorem updateLatency_ema_nonneg (raw : Int) (es : EmaState) (h : 0 ≤ es.emaLatency) :
    0 ≤ (updateLatency raw es).1.emaLatency := by
  simp only [updateLatency]
  split_ifs <;> simp_all <;> omega

/-- Every value published by the callback is nonnegative (in particular it
is never the −1 sentinel). -/
theorem updateLatency_pub_nonneg (raw : Int) (es : EmaState) (v : Int)
    (h : 0 ≤ es.emaLatency) (hp : (updateLatency raw es).2 = some v) : 0 ≤ v := by
  simp only [updateLatency] at hp
  split_ifs at hp <;> simp_all <;> omega

/-- A step of the UDP loop preserves nonnegativity of the EMA accumulator. -/
theorem stepUdp_inv (pubSrv : Bool) (s : UdpState) (e : UdpEvent)
    (h : 0 ≤ s.ema.emaLatency) : 0 ≤ (stepUdp pubSrv s e).1.ema.emaLatency := by
  cases e with
  | resp elapsed => exact updateLatency_ema_nonneg _ _ h
  | tick a b =>
      simp only [stepUdp]
      split_ifs <;> simp_all

/-- Publication ordering for a single step: −1 only from the timer branch
at counter ≥ 4; a timer-branch 0 only at counter in [2, 4). -/
theorem stepUdp_publish_good (pubSrv : Bool) (s : UdpState) (e : UdpEvent) (p : Publish)
    (hema : 0 ≤ s.ema.emaLatency) (hp : p ∈ (stepUdp pubSrv s e).2) :
    (p.value = -1 → 4 ≤ p.failsAt) ∧
    (p.fromTimer = true → p.value = 0 → 2 ≤ p.failsAt ∧ p.failsAt < 4) := by
  cases e with
  | resp elapsed =>
      simp only [stepUdp] at hp
      rcases hv : (updateLatency (if s.regInFlight then elapsed else 0) s.ema).2 with _ | v
      · rw [hv] at hp; simp at hp
      · rw [hv] at hp
        simp only [List.mem_singleton] at hp
        subst hp
        have := updateLatency_pub_nonneg _ _ v hema hv
        exact ⟨fun hv1 => by simp_all, fun hft => by simp_all⟩
  | tick a b =>
      simp only [stepUdp] at hp
      split_ifs at hp <;> simp_all

/-- Publication ordering along any run from a state with a nonnegative
EMA accumulator. -/
theorem runUdp_publish_good (pubSrv : Bool) :
    ∀ (tr : List UdpEvent) (s : UdpState), 0 ≤ s.ema.emaLatency →
      ∀ p ∈ (runUdp pubSrv s tr).2,
        (p.value = -1 → 4 ≤ p.failsAt) ∧
        (p.fromTimer = true → p.value = 0 → 2 ≤ p.failsAt ∧ p.failsAt < 4) := by
  intro tr
  induction tr with
  | nil => intro s _ p hp; simp [runUdp] at hp
  | cons e tr ih =>
      intro s hs p hp
      simp only [runUdp, List.mem_append] at hp
      rcases hp with hp | hp
      · exact stepUdp_publish_good pubSrv s e p hs hp
      · exact ih _ (stepUdp_inv pubSrv s e hs) p hp

/-- C4 amended: along every execution of the UDP loop, −1 is published
only with the failure counter at 4 or more, and the timer branch
publishes 0 only with the counter in [2, 4); the latency callback may
additionally publish 0 with the counter at 0 when a response arrives with
no registration in flight. -/
theorem c4_sentinel_order_amended (pubSrv : Bool) (tr : List UdpEvent) (p : Publish)
    (hp : p ∈ (runUdp pubSrv udpInit tr).2) :
    (p.value = -1 → 4 ≤ p.failsAt) ∧
    (p.fromTimer = true → p.value = 0 → 2 ≤ p.failsAt ∧ p.failsAt < 4) :=
  runUdp_publish_good pubSrv tr udpInit (by decide) p hp

/-- Witness for C4 amended: a trace of one initial registration tick and
four timeout ticks publishes the −1 sentinel exactly when the counter
reaches 4. -/
theorem c4_sentinel_order_amended_witness :
    (⟨-1, 4, true⟩ : Publish) ∈ (runUdp true udpInit
      [UdpEvent.tick true false, UdpEvent.tick true true, UdpEvent.tick true true,
       UdpEvent.tick true true, UdpEvent.tick true true]).2 ∧
    4 ≤ (Publish.mk (-1) 4 true).failsAt :=
  ⟨by decide, (c4_sentinel_order_amended true
      [UdpEvent.tick true false, UdpEvent.tick true true, UdpEvent.tick true true,
       UdpEvent.tick true true, UdpEvent.tick true true] ⟨-1, 4, true⟩ (by decide)).1 rfl⟩

/-- C5: when the single-flight guard holds a non-empty host name different
from the invoking session's host, `handle_uuid_mismatch` returns success
with no message sent and no change to the guard, the key-confirmed state
or the local identity. -/
theorem c5_mismatch_guard_skip (host id : String) (g : GuardState)
    (h1 : g.solving ≠ "") (h2 : g.solving ≠ host) :
    handle_uuid_mismatch host id g = (g, []) := by
  simp only [handle_uuid_mismatch]
  rw [if_neg]
  rintro (h | h) <;> contradiction

/-- Witness for C5: guard held by "b", session host "a". -/
theorem c5_mismatch_guard_skip_witness :
    ("b" : String) ≠ "" ∧ ("b" : String) ≠ "a" ∧
      handle_uuid_mismatch "a" "id1" ⟨"b", true, fun _ => true, 0⟩ =
        (⟨"b", true, fun _ => true, 0⟩, []) :=
  ⟨by decide, by decide, c5_mismatch_guard_skip "a" "id1" _ (by decide) (by decide)⟩

/-- C9: `register_peer` sends no message at all (neither RegisterPeer nor
RegisterPk) and returns Ok while the guard holds a non-empty host name
different from the session's host. -/
theorem c9_register_peer_guard_skip (host hpfx id : String) (serial : Int) (g : GuardState)
    (h1 : g.solving ≠ "") (h2 : g.solving ≠ host) :
    register_peer host hpfx id serial g = [] := by
  simp only [register_peer]
  rw [if_pos]
  rintro (h | h) <;> contradiction

/-- Witness for C9: guard held by "b", session host "a". -/
theorem c9_register_peer_guard_skip_witness :
    ("b" : String) ≠ "" ∧ ("b" : String) ≠ "a" ∧
      register_peer "a" "a" "id1" 3 ⟨"b", true, fun _ => true, 0⟩ = [] :=
  ⟨by decide, by decide, c9_register_peer_guard_skip "a" "a" "id1" 3 _ (by decide) (by decide)⟩

/-- C6: the ConfigureUpdate handler always stores the pushed serial; it
leaves both control flags untouched when the stored server list reads
back unchanged, and sets both to true (a global restart) when it reads
back changed. -/
theorem c6_configure_update (getServers : ConfigStore → List String) (c : ConfigStore)
    (fl : ControlFlags) (ps : List String) (sn : Int) :
    (handleConfigureUpdate getServers c fl ps sn).1.serial = sn ∧
    (getServers (handleConfigureUpdate getServers c fl ps sn).1 = getServers c →
      (handleConfigureUpdate getServers c fl ps sn).2 = fl) ∧
    (getServers (handleConfigureUpdate getServers c fl ps sn).1 ≠ getServers c →
      (handleConfigureUpdate getServers c fl ps sn).2 = ⟨true, true⟩) := by
  simp only [handleConfigureUpdate, restart]
  by_cases h : getServers c ≠ getServers ⟨String.intercalate "," ps, sn⟩
  · rw [if_pos h]
    exact ⟨rfl, fun heq => absurd heq.symm h, fun _ => rfl⟩
  · simp only [not_not] at h
    rw [if_neg (by simp [h])]
    exact ⟨rfl, fun _ => rfl, fun hne => absurd h.symm hne⟩

/-- Witness for C6 at a concrete store: pushing ["x"] over stored "y"
changes the list, so both control flags become true. -/
theorem c6_configure_update_witness :
    ((fun c : ConfigStore => [c.rendezvousServersOption]) (handleConfigureUpdate
        (fun c => [c.rendezvousServersOption]) ⟨"y", 0⟩ ⟨false, false⟩ ["x"] 7).1 ≠
      (fun c : ConfigStore => [c.rendezvousServersOption]) ⟨"y", 0⟩) ∧
      (handleConfigureUpdate (fun c => [c.rendezvousServersOption])
        ⟨"y", 0⟩ ⟨false, false⟩ ["x"] 7).2 = ⟨true, true⟩ :=
  ⟨by decide, (c6_configure_update (fun c => [c.rendezvousServersOption])
      ⟨"y", 0⟩ ⟨false, false⟩ ["x"] 7).2.2 (by decide)⟩

/-- Accumulator-generalised characterisation of the bitmap decode loop:
with every byte index in range, it classifies index `j` online iff bit
`7 - j % 8` of byte `j / 8` is set. -/
theorem decode_go_eq (states : List Nat) :
    ∀ (l : List String) (i : Nat) (onl ofl : List String),
      (∀ j : Nat, i ≤ j → j < i + l.length → j / 8 < states.length) →
      decode_go states l i onl ofl =
        some (onl ++ ((List.enumFrom i l).filter (fun p => bitOf states p.1)).map Prod.snd,
              ofl ++ ((List.enumFrom i l).filter (fun p => !bitOf states p.1)).map Prod.snd) := by
  intro l
  induction l with
  | nil => intro i onl ofl _; simp [decode_go]
  | cons a rest ih =>
      intro i onl ofl h
      have hi : i / 8 < states.length := h i le_rfl (by simp)
      have hb : states[i / 8]? = some states[i / 8] := List.getElem?_eq_getElem hi
      have hbit : bitOf states i
          = (states[i / 8].land (Nat.shiftLeft 1 (7 - i % 8)) == Nat.shiftLeft 1 (7 - i % 8)) := by
        simp only [bitOf, hb]
      have hbound : ∀ j : Nat, i + 1 ≤ j → j < i + 1 + rest.length → j / 8 < states.length := by
        intro j hj1 hj2
        refine h j (by omega) ?_
        simp only [List.length_cons]
        omega
      have he : List.enumFrom i (a :: rest) = (i, a) :: List.enumFrom (i + 1) rest := rfl
      simp only [decode_go, hb]
      by_cases hc : bitOf states i = true
      · have hc' : (states[i / 8].land (Nat.shiftLeft 1 (7 - i % 8))
            == Nat.shiftLeft 1 (7 - i % 8)) = true := by rw [← hbit]; exact hc
        rw [if_pos hc', ih (i + 1) (onl ++ [a]) ofl hbound]
        simp [he, List.filter_cons, hc]
      · have hcf : bitOf states i = false := by
          revert hc; cases bitOf states i <;> simp
        have hc' : ¬((states[i / 8].land (Nat.shiftLeft 1 (7 - i % 8))
            == Nat.shiftLeft 1 (7 - i % 8)) = true) := by rw [← hbit]; simp [hcf]
        rw [if_neg hc', ih (i + 1) onl (ofl ++ [a]) hbound]
        simp [he, List.filter_cons, hcf]

/-- C7: decoding the bitmap byte 0b1010_0000 over ids A, B, C, D yields
onlines [A, C] and offlines [B, D]; in general, with a well-sized states
vector (at least ceil(len / 8) bytes), the decode classifies the id at
index i online iff bit `7 - i % 8` of byte `i / 8` is set, MSB first. -/
theorem c7_online_bitmap_decode :
    decodeOnlineStates ["A", "B", "C", "D"] [160] = some (["A", "C"], ["B", "D"]) ∧
    ∀ (ids : List String) (states : List Nat),
      (ids.length + 7) / 8 ≤ states.length →
      decodeOnlineStates ids states = some (onlinesSpec ids states, offlinesSpec ids states) := by
  refine ⟨by decide, ?_⟩
  intro ids states hlen
  have hb : ∀ j : Nat, 0 ≤ j → j < 0 + ids.length → j / 8 < states.length := by
    intro j _ hj
    simp only [Nat.zero_add] at hj
    omega
  rw [decodeOnlineStates, decode_go_eq states ids 0 [] [] hb]
  rfl

/-- Witness for C7: the general characterisation applied to the concrete
four-id query with bitmap byte 160. -/
theorem c7_online_bitmap_decode_witness :
    ((["A", "B", "C", "D"] : List String).length + 7) / 8 ≤ ([160] : List Nat).length ∧
      decodeOnlineStates ["A", "B", "C", "D"] [160] =
        some (onlinesSpec ["A", "B", "C", "D"] [160], offlinesSpec ["A", "B", "C", "D"] [160]) :=
  ⟨by decide, c7_online_bitmap_decode.2 ["A", "B", "C", "D"] [160] (by decide)⟩

/-- The decode loop reaches the out-of-bounds branch whenever some id
index needs a byte past the end of the states vector. -/
theorem decode_go_oob (states : List Nat) :
    ∀ (l : List String) (i : Nat) (onl ofl : List String),
      (∃ j : Nat, i ≤ j ∧ j < i + l.length ∧ states.length ≤ j / 8) →
      decode_go states l i onl ofl = none := by
  intro l
  induction l with
  | nil =>
      rintro i onl ofl ⟨j, hj1, hj2, _⟩
      simp only [List.length_nil] at hj2
      omega
  | cons a rest ih =>
      rintro i onl ofl ⟨j, hj1, hj2, hj3⟩
      by_cases hi : i / 8 < states.length
      · have hb : states[i / 8]? = some states[i / 8] := List.getElem?_eq_getElem hi
        have hnext : ∃ j : Nat, i + 1 ≤ j ∧ j < i + 1 + rest.length ∧ states.length ≤ j / 8 := by
          refine ⟨j, by omega, ?_, hj3⟩
          simp only [List.length_cons] at hj2
          omega
        simp only [decode_go, hb]
        split_ifs <;> [exact ih (i + 1) (onl ++ [a]) ofl hnext;
                       exact ih (i + 1) onl (ofl ++ [a]) hnext]
      · have hb : states[i / 8]? = none := by
          rw [List.getElem?_eq_none_iff]
          omega
        simp only [decode_go, hb]

/-- C10: for every non-empty id list and a states vector shorter than
ceil(len / 8) bytes, the unguarded `states[i / 8]` access goes out of
bounds for some id index, so the decode hits its failure branch instead
of classifying the uncovered ids. -/
theorem c10_short_states_oob (ids : List String) (states : List Nat)
    (hne : ids ≠ []) (hshort : states.length < (ids.length + 7) / 8) :
    decodeOnlineStates ids states = none := by
  have hlen : 1 ≤ ids.length := by
    cases ids with
    | nil => exact absurd rfl hne
    | cons a l => simp
  exact decode_go_oob states ids 0 [] [] ⟨8 * states.length, by omega, by omega, by omega⟩

/-- Witness for C10: one id against an empty states vector. -/
theorem c10_short_states_oob_witness :
    (["A"] : List String) ≠ [] ∧ (([] : List Nat).length < ((["A"] : List String).length + 7) / 8) ∧
      decodeOnlineStates ["A"] [] = none :=
  ⟨by decide, by decide, c10_short_states_oob ["A"] [] (by decide) (by decide)⟩

/-- C8: with `SHOULD_EXIT` clear, if the online stream cannot be connected
or the single batched query cannot be sent, the query returns immediately
— independently of any later iterations, hence without retrying — the
successful result with an empty online partition and the whole input list
offline. -/
theorem c8_fail_open_offline (ids : List String) (e : IterEnv) (rest : List IterEnv)
    (hexit : e.shouldExit = false)
    (hfail : e.connectOk = false ∨ e.sendOk = false) :
    queryLoop ids (e :: rest) = some (QueryResult.ok [] ids) := by
  simp only [queryLoop, hexit]
  rcases hfail with hf | hf <;> simp [hf]

/-- Witness for C8: a failed connect on the first iteration reports both
ids offline. -/
theorem c8_fail_open_offline_witness :
    (IterEnv.mk false false true RecvOutcome.wrongVariant false).shouldExit = false ∧
      queryLoop ["p1", "p2"] [IterEnv.mk false false true RecvOutcome.wrongVariant false] =
        some (QueryResult.ok [] ["p1", "p2"]) :=
  ⟨by decide, c8_fail_open_offline ["p1", "p2"] ⟨false, false, true, RecvOutcome.wrongVariant, false⟩
      [] (by decide) (Or.inl (by decide))⟩

end Rendezvous
